import Mathlib

/-!
Verification of the ebaplanner event-planning backend.

This file shallowly embeds the core data logic of the repository
(three backend revisions: spreadsheet-backed, Firestore-backed, and
Firestore-backed with sessions) and proves properties about it:

* the date normalizer `parseAndFormatDate` (spreadsheet revision),
* the event-list sort comparator (spreadsheet revision),
* the Firestore-revision CRUD handlers in `server.js`,
* the session-revision handlers (auth gate, login, blob deletion),
* the GCS blob-name generation and URL-prefix-guarded deletion.

JavaScript strings are modelled by Lean `String`; JS `null`/`undefined`
collapses to the empty string wherever the source code only tests
truthiness (the handlers use fields via `x || ''` and `if (!x)`), and is
kept as an explicit `Option`/inductive where the source distinguishes the
cases.  Machine integers (timestamps) are modelled by `Int`/`Nat`.
Engine-provided generic date parsing (`new Date(s)`) is an abstract
parameter of the functions that invoke it.
-/

namespace EbaPlanner

/-! ### Decimal digits and JS number stringification

`natDecimal` embeds the JavaScript stringification of a nonnegative
integer (as produced by template literals such as `` `${Date.now()}` ``
and `'0' + m`): its decimal digit string.  Structural recursion on a
fuel argument keeps it kernel-reducible. -/

/-- The numeric value of a decimal digit character (as `parseInt` sees it). -/
def digitVal (c : Char) : Nat := c.toNat - '0'.toNat

/-- `parseInt(s, 10)` on a string of decimal digit characters. -/
def digitsVal (cs : List Char) : Nat := cs.foldl (fun a c => 10 * a + digitVal c) 0

/-- The decimal digit character for `k < 10`. -/
def digitChar (k : Nat) : Char := Char.ofNat (48 + k)

/-- Core of decimal rendering; `fuel` strictly exceeds `n` at every call. -/
def toDecimalCore : Nat → Nat → List Char → List Char
  | 0, _, acc => acc
  | fuel + 1, n, acc =>
    let d := digitChar (n % 10)
    if n / 10 = 0 then d :: acc else toDecimalCore fuel (n / 10) (d :: acc)

/-- The decimal digit list of `n` (JS stringification of an integer). -/
def natDecimal (n : Nat) : List Char := toDecimalCore (n + 1) n []

theorem digitChar_isDigit {k : Nat} (h : k < 10) : (digitChar k).isDigit = true := by
  interval_cases k <;> decide

theorem digitVal_digitChar {k : Nat} (h : k < 10) : digitVal (digitChar k) = k := by
  interval_cases k <;> decide

theorem toDecimalCore_append (fuel n : Nat) (acc : List Char) :
    toDecimalCore fuel n acc = toDecimalCore fuel n [] ++ acc := by
  induction fuel generalizing n acc with
  | zero => simp [toDecimalCore]
  | succ fuel ih =>
    simp only [toDecimalCore]
    by_cases h : n / 10 = 0
    · simp [h]
    · simp only [h, if_false]
      rw [ih (n / 10) (digitChar (n % 10) :: acc), ih (n / 10) [digitChar (n % 10)]]
      simp

theorem toDecimalCore_fuel (f1 f2 n : Nat) (h1 : n < f1) (h2 : n < f2) :
    toDecimalCore f1 n [] = toDecimalCore f2 n [] := by
  induction n using Nat.strong_induction_on generalizing f1 f2 with
  | _ n ih =>
    match f1, f2 with
    | f1 + 1, f2 + 1 =>
      simp only [toDecimalCore]
      by_cases h : n / 10 = 0
      · simp [h]
      · simp only [h, if_false]
        rw [toDecimalCore_append f1, toDecimalCore_append f2]
        have hlt : n / 10 < n := Nat.div_lt_self (Nat.pos_of_ne_zero (by
          intro hn; exact h (by simp [hn]))) (by omega)
        rw [ih (n / 10) hlt f1 f2 (by omega) (by omega)]

theorem natDecimal_lt_ten {n : Nat} (h : n < 10) : natDecimal n = [digitChar n] := by
  have h10 : n / 10 = 0 := Nat.div_eq_of_lt h
  have hm : n % 10 = n := Nat.mod_eq_of_lt h
  simp [natDecimal, toDecimalCore, h10, hm]

theorem toDecimalCore_succ (fuel n : Nat) (acc : List Char) :
    toDecimalCore (fuel + 1) n acc =
      if n / 10 = 0 then digitChar (n % 10) :: acc
      else toDecimalCore fuel (n / 10) (digitChar (n % 10) :: acc) := rfl

theorem natDecimal_ge_ten {n : Nat} (h : 10 ≤ n) :
    natDecimal n = natDecimal (n / 10) ++ [digitChar (n % 10)] := by
  have hne : ¬ n / 10 = 0 := by
    intro h0
    omega
  show toDecimalCore (n + 1) n [] = _
  rw [toDecimalCore_succ, if_neg hne, toDecimalCore_append,
    toDecimalCore_fuel n (n / 10 + 1) (n / 10)
      (Nat.div_lt_self (by omega) (by omega)) (by omega)]
  rfl

theorem natDecimal_all_digit (n : Nat) : ∀ c ∈ natDecimal n, c.isDigit = true := by
  induction n using Nat.strong_induction_on with
  | _ n ih =>
    by_cases h : n < 10
    · rw [natDecimal_lt_ten h]
      intro c hc
      simp at hc
      subst hc
      exact digitChar_isDigit h
    · rw [natDecimal_ge_ten (by omega)]
      intro c hc
      rcases List.mem_append.mp hc with h1 | h2
      · exact ih (n / 10) (Nat.div_lt_self (by omega) (by omega)) c h1
      · simp at h2
        subst h2
        exact digitChar_isDigit (Nat.mod_lt _ (by omega))

theorem digitsVal_append_singleton (cs : List Char) (c : Char) :
    digitsVal (cs ++ [c]) = 10 * digitsVal cs + digitVal c := by
  simp [digitsVal, List.foldl_append]

theorem digitsVal_natDecimal (n : Nat) : digitsVal (natDecimal n) = n := by
  induction n using Nat.strong_induction_on with
  | _ n ih =>
    by_cases h : n < 10
    · rw [natDecimal_lt_ten h]
      simp [digitsVal, digitVal_digitChar h]
    · rw [natDecimal_ge_ten (by omega), digitsVal_append_singleton,
        ih (n / 10) (Nat.div_lt_self (by omega) (by omega)),
        digitVal_digitChar (Nat.mod_lt _ (by omega))]
      omega

theorem natDecimal_injective : Function.Injective natDecimal := by
  intro a b h
  have := digitsVal_natDecimal a
  rw [h, digitsVal_natDecimal] at this
  omega

/-! ### The Date Normalizer (`parseAndFormatDate`, spreadsheet revision)

`parseAndFormatDate(dateValue)` tries, in order:
1. `^(\d{1,2})\.(\d{1,2})\.(\d{4})$` interpreted as day.month.year,
2. `^(\d{4})-(\d{1,2})-(\d{1,2})` (prefix match) as year-month-day,
3. `^(\d{1,2})\/(\d{1,2})\/(\d{4})$` as month/day/year,
4. a generic `new Date(dateStr)` fallback (engine-specific, modelled as
   an abstract parameter yielding the local `getFullYear`,
   `getMonth()+1`, `getDate` components, or `none` for an Invalid Date).
Each numeric form is range-checked (`y > 1900 && m >= 1 && m <= 12 &&
d >= 1 && d <= 31`); a failing range check falls through to the next
strategy.  On total failure the function logs a warning and returns
`null` (here `none`).

The regexes are embedded as greedy character-list parsers; greediness is
faithful because every `\d{1,2}` group is followed by a non-digit
literal (or by nothing), so the regex engine never needs to backtrack
into a shorter digit group. -/

/-- `('0' + n).slice(-2)`: the last two characters of `'0'` followed by the
decimal rendering of `n`. -/
def pad2 (n : Nat) : String :=
  let l := '0' :: natDecimal n
  ⟨l.drop (l.length - 2)⟩

/-- `` `${y}-${('0'+m).slice(-2)}-${('0'+d).slice(-2)}` ``. -/
def fmtYMD (y m d : Nat) : String :=
  ⟨natDecimal y⟩ ++ "-" ++ pad2 m ++ "-" ++ pad2 d

/-- `String.prototype.trim()` on the character list of a JS string. -/
def jsTrim (cs : List Char) : List Char :=
  ((cs.dropWhile Char.isWhitespace).reverse.dropWhile Char.isWhitespace).reverse

/-- Greedy `\d{1,2}`: one or two digit characters and their `parseInt` value. -/
def take12 : List Char → Option (Nat × List Char)
  | [] => none
  | c :: cs =>
    if c.isDigit then
      match cs with
      | c2 :: cs2 =>
        if c2.isDigit then some (10 * digitVal c + digitVal c2, cs2)
        else some (digitVal c, cs)
      | [] => some (digitVal c, [])
    else none

/-- `\d{4}`: exactly four digit characters and their `parseInt` value. -/
def take4 : List Char → Option (Nat × List Char)
  | c1 :: c2 :: c3 :: c4 :: cs =>
    if c1.isDigit && c2.isDigit && c3.isDigit && c4.isDigit then
      some (digitsVal [c1, c2, c3, c4], cs)
    else none
  | _ => none

/-- A literal character in the pattern. -/
def expectChar (c : Char) : List Char → Option (List Char)
  | [] => none
  | x :: xs => if x = c then some xs else none

/-- `^(\d{1,2})\.(\d{1,2})\.(\d{4})$`, returning `(d, m, y)`. -/
def matchDMY (cs : List Char) : Option (Nat × Nat × Nat) :=
  match take12 cs with
  | none => none
  | some (d, r1) =>
    match expectChar '.' r1 with
    | none => none
    | some r2 =>
      match take12 r2 with
      | none => none
      | some (m, r3) =>
        match expectChar '.' r3 with
        | none => none
        | some r4 =>
          match take4 r4 with
          | none => none
          | some (y, r5) => if r5 = [] then some (d, m, y) else none

/-- `^(\d{4})-(\d{1,2})-(\d{1,2})` (no end anchor), returning `(d, m, y)`. -/
def matchYMD (cs : List Char) : Option (Nat × Nat × Nat) :=
  match take4 cs with
  | none => none
  | some (y, r1) =>
    match expectChar '-' r1 with
    | none => none
    | some r2 =>
      match take12 r2 with
      | none => none
      | some (m, r3) =>
        match expectChar '-' r3 with
        | none => none
        | some r4 =>
          match take12 r4 with
          | none => none
          | some (d, _) => some (d, m, y)

/-- `^(\d{1,2})\/(\d{1,2})\/(\d{4})$`, returning `(d, m, y)`. -/
def matchMDY (cs : List Char) : Option (Nat × Nat × Nat) :=
  match take12 cs with
  | none => none
  | some (m, r1) =>
    match expectChar '/' r1 with
    | none => none
    | some r2 =>
      match take12 r2 with
      | none => none
      | some (d, r3) =>
        match expectChar '/' r3 with
        | none => none
        | some r4 =>
          match take4 r4 with
          | none => none
          | some (y, r5) => if r5 = [] then some (d, m, y) else none

/-- `y > 1900 && m >= 1 && m <= 12 && d >= 1 && d <= 31`. -/
def rangeOk (d m y : Nat) : Bool :=
  decide (1900 < y) && decide (1 ≤ m) && decide (m ≤ 12) &&
    decide (1 ≤ d) && decide (d ≤ 31)

/-- The result of the engine's generic `new Date(dateStr)` parse, read back
through the local-time accessors: `year` is `getFullYear()`, `month` is
`getMonth() + 1`, `day` is `getDate()`. -/
structure GenericDate where
  year : Nat
  month : Nat
  day : Nat
deriving DecidableEq

/-- Strategy 4: the `new Date(dateStr)` fallback, then
`pd.getFullYear() + '-' + ('0' + (pd.getMonth() + 1)).slice(-2) + '-' +
('0' + pd.getDate()).slice(-2)`; an Invalid Date yields `null`. -/
def tryFallback (fb : String → Option GenericDate) (ds : List Char) : Option String :=
  match fb ⟨ds⟩ with
  | some g => some (fmtYMD g.year g.month g.day)
  | none => none

/-- Strategy 3 (`M/D/YYYY`), falling through to the generic fallback. -/
def tryMDY (fb : String → Option GenericDate) (ds : List Char) : Option String :=
  match matchMDY ds with
  | some (d, m, y) => if rangeOk d m y then some (fmtYMD y m d) else tryFallback fb ds
  | none => tryFallback fb ds

/-- Strategy 2 (`YYYY-M-D` prefix), falling through to strategy 3. -/
def tryYMD (fb : String → Option GenericDate) (ds : List Char) : Option String :=
  match matchYMD ds with
  | some (d, m, y) => if rangeOk d m y then some (fmtYMD y m d) else tryMDY fb ds
  | none => tryMDY fb ds

/-- Strategy 1 (`D.M.YYYY`), falling through to strategy 2. -/
def tryDMY (fb : String → Option GenericDate) (ds : List Char) : Option String :=
  match matchDMY ds with
  | some (d, m, y) => if rangeOk d m y then some (fmtYMD y m d) else tryYMD fb ds
  | none => tryYMD fb ds

/-- `parseAndFormatDate(dateValue)`: `if (!dateValue) return null`, trim,
`if (!dateStr) return null`, then the four strategies in order. -/
def parseAndFormatDate (fb : String → Option GenericDate) (dateValue : String) :
    Option String :=
  if dateValue = "" then none
  else
    let ds := jsTrim dateValue.data
    if ds = [] then none else tryDMY fb ds

/-! ### List ordering (GET /api/events, spreadsheet revision)

Each nonempty sheet row becomes an event object carrying
`sortableDate = parseAndFormatDate(dateValue)` and its start-time column;
the handler then sorts with the inline comparator (events.sort(...)).
`Array.prototype.sort` with a consistent comparator produces a
permutation of the input that is pairwise ordered by the comparator; it
is modelled by `List.mergeSort` on the boolean relation `cmp ≤ 0`. -/

/-- The date and start-time columns of a nonempty sheet row (the only
fields the sort comparator reads). -/
structure SheetRow where
  rawDate : String
  startTime : String
deriving DecidableEq

/-- An event as listed: its normalized `sortableDate` and start time. -/
structure ListedEvent where
  sortableDate : Option String
  startTime : String
deriving DecidableEq

/-- JS truthiness test `!x` for a string-or-null value. -/
def optFalsy : Option String → Bool
  | none => true
  | some s => s == ""

/-- The sort comparator: undated events sort last, then ascending
`sortableDate`, then ascending start time (JS `<`/`>` on strings). -/
def eventCmp (a b : ListedEvent) : Int :=
  if optFalsy a.sortableDate && optFalsy b.sortableDate then 0
  else if optFalsy a.sortableDate then 1
  else if optFalsy b.sortableDate then -1
  else if a.sortableDate.getD "" < b.sortableDate.getD "" then -1
  else if b.sortableDate.getD "" < a.sortableDate.getD "" then 1
  else if a.startTime < b.startTime then -1
  else if b.startTime < a.startTime then 1
  else 0

/-- `eventCmp a b ≤ 0`: `a` may precede `b` in the sorted output. -/
def eventLe (a b : ListedEvent) : Bool := decide (eventCmp a b ≤ 0)

/-- Row → listed event: `event.sortableDate = parseAndFormatDate(dateValue)`. -/
def mkListed (fb : String → Option GenericDate) (r : SheetRow) : ListedEvent :=
  ⟨parseAndFormatDate fb r.rawDate, r.startTime⟩

/-- The GET /api/events pipeline after row extraction: normalize, sort. -/
def listEvents (fb : String → Option GenericDate) (rows : List SheetRow) :
    List ListedEvent :=
  (rows.map (mkListed fb)).mergeSort eventLe

/-! ### Blob Store Adapter (GCS, both Firestore revisions) -/

/-- The fixed logical container. -/
def GCS_BUCKET_NAME : String := "ebaplanner_event_images"

/-- `https://storage.googleapis.com/${bucket.name}/`. -/
def gcsPrefix : String := "https://storage.googleapis.com/" ++ GCS_BUCKET_NAME ++ "/"

/-- `originalname.replace(/ /g, '_')`. -/
def sanitizeName (s : String) : String :=
  ⟨s.data.map (fun c => if c = ' ' then '_' else c)⟩

/-- `` `${Date.now()}-${originalname.replace(/ /g, '_')}` ``: the generated
object name for an upload at time `t` (ms). -/
def uniqueFilename (t : Nat) (originalname : String) : String :=
  ⟨natDecimal t⟩ ++ "-" ++ sanitizeName originalname

/-- The public URL returned by `uploadToGcs`. -/
def uploadUrl (t : Nat) (originalname : String) : String :=
  gcsPrefix ++ uniqueFilename t originalname

/-- `fileUrl.startsWith(gcsPrefix)`. -/
def urlMatchesBucket (fileUrl : String) : Bool :=
  gcsPrefix.data.isPrefixOf fileUrl.data

/-- Which branch of `deleteFromGcs` ran (console output is the only
observable effect besides the blob store). -/
inductive GcsDeleteLog
  | warnedInvalid
  | warnedEmptyName
  | deleted (name : String)
  | errorLogged (name : String)
deriving DecidableEq

/-- `deleteFromGcs(fileUrl)`: warn and return on a falsy or
non-matching URL; otherwise attempt the deletion, logging (never
throwing) on failure.  `backendFails` models a rejecting
`bucket.file(name).delete()` call; a missing object also rejects. -/
def deleteFromGcs (backendFails : Bool) (blobs : List String) (fileUrl : String) :
    List String × GcsDeleteLog :=
  if fileUrl = "" ∨ urlMatchesBucket fileUrl = false then (blobs, .warnedInvalid)
  else
    let fileName : String := ⟨fileUrl.data.drop gcsPrefix.data.length⟩
    if fileName = "" then (blobs, .warnedEmptyName)
    else if backendFails || !(blobs.contains fileName) then (blobs, .errorLogged fileName)
    else (blobs.erase fileName, .deleted fileName)

/-! ### Event API, Firestore revision (`server.js`)

Text form fields arrive as strings; an absent field (`undefined`) and
the empty string are both falsy and are used only via `!x` and
`x || ''`, so both are modelled as `""`.  `Timestamp.fromDate(new
Date(s + 'T00:00:00Z'))` either yields a timestamp or throws on an
Invalid Date (caught, → 400); it is modelled by the abstract engine
parameter `jsParse` applied to `s ++ "T00:00:00Z"`, with `none` for the
throwing case.  `FieldValue.serverTimestamp()` is the abstract `now`;
the Firestore-assigned document id of `add` is the abstract `newId`. -/

/-- Status code and message of a JSON API response (a 201 response also
carries the id of the appended record, i.e. the key of the new store
entry). -/
structure ApiResponse where
  status : Nat
  message : String
deriving DecidableEq

/-- The canonical text fields of a create/update request body. -/
structure EventBody where
  title : String
  eventDate : String
  startTime : String
  endTime : String
  description : String
  resources : String
  responsible : String
  eventType : String
  participantInfo : String
deriving DecidableEq

/-- An uploaded `eventImage` file: only its original name feeds the
generated object name (buffer and mimetype are payload). -/
structure UploadFile where
  originalname : String
deriving DecidableEq

/-- A stored event document (`server.js` revision): `eventDate` and
`createdAt` are Firestore timestamps (epoch ms), `imageUrl` is a URL or
`null`. -/
structure StoredEvent where
  title : String
  eventDate : Int
  startTime : String
  endTime : String
  description : String
  resources : String
  responsible : String
  eventType : String
  participantInfo : String
  imageUrl : Option String
  createdAt : Int
deriving DecidableEq

/-- The events collection, keyed by document id. -/
abbrev EventStore := List (String × StoredEvent)

/-- First-match association-list lookup (document get by id). -/
def lookupE {α : Type} : List (String × α) → String → Option α
  | [], _ => none
  | (k, v) :: t, key => if k = key then some v else lookupE t key

/-- Replace the document stored under `key` (Firestore `update`). -/
def storeSet {α : Type} (l : List (String × α)) (key : String) (v : α) :
    List (String × α) :=
  l.map (fun p => if p.1 = key then (key, v) else p)

/-- Delete the document stored under `key` (Firestore `delete`). -/
def storeRemove {α : Type} (l : List (String × α)) (key : String) :
    List (String × α) :=
  l.filter (fun p => p.1 != key)

/-- Result of a `server.js` handler: response, events collection, blob
container contents. -/
structure OutV2 where
  response : ApiResponse
  events : EventStore
  blobs : List String

/-- POST /api/events (`server.js`): validate title/date, upload any
image, convert the date (400 on throw), append the document with
`createdAt: FieldValue.serverTimestamp()`.  The upload happens before
date conversion, exactly as in the source.  (A failing GCS upload
surfaces as 500 via the outer catch and is not modelled.) -/
def postEvent (jsParse : String → Option Int) (now : Int) (uploadTime : Nat)
    (newId : String) (body : EventBody) (file : Option UploadFile)
    (events : EventStore) (blobs : List String) : OutV2 :=
  if body.title = "" ∨ body.eventDate = "" then
    ⟨⟨400, "Title and Date are required fields."⟩, events, blobs⟩
  else
    let upload :=
      match file with
      | some f =>
        let name := uniqueFilename uploadTime f.originalname
        (some (uploadUrl uploadTime f.originalname), name :: blobs)
      | none => ((none : Option String), blobs)
    -- body.eventDate ≠ "" here, so the `if (eventData[FIELD_DATE])` guard
    -- takes its then-branch (the belts-and-suspenders else is unreachable)
    match jsParse (body.eventDate ++ "T00:00:00Z") with
    | none => ⟨⟨400, "Invalid date format. Please use YYYY-MM-DD."⟩, events, upload.2⟩
    | some ts =>
      let newEvent : StoredEvent :=
        { title := body.title
          eventDate := ts
          startTime := body.startTime
          endTime := body.endTime
          description := body.description
          resources := body.resources
          responsible := body.responsible
          eventType := if body.eventType = "" then "Öffentlich" else body.eventType
          participantInfo := body.participantInfo
          imageUrl := upload.1
          createdAt := now }
      ⟨⟨201, "Event added successfully."⟩, events ++ [(newId, newEvent)], upload.2⟩

/-- PUT /api/events/:id (`server.js`): JSON body, no image handling.
`body = none` models a missing/empty-object body (the
`!eventData || typeof ... || Object.keys(...).length === 0` guard; an
all-empty-fields object fails the very next check with the same
message).  The id comes from the URL path only.  The update payload
contains exactly the nine mutable text/date fields, so Firestore's
`update` merge leaves `createdAt` and `imageUrl` untouched. -/
def putEvent (jsParse : String → Option Int) (eventId : String)
    (body : Option EventBody) (events : EventStore) : ApiResponse × EventStore :=
  if eventId = "" then (⟨400, "Event ID missing."⟩, events)
  else
    match body with
    | none => (⟨400, "Invalid data or Title/Date missing."⟩, events)
    | some b =>
      if b.title = "" ∨ b.eventDate = "" then
        (⟨400, "Invalid data or Title/Date missing."⟩, events)
      else
        match lookupE events eventId with
        | none => (⟨404, "Event not found."⟩, events)
        | some existing =>
          match jsParse (b.eventDate ++ "T00:00:00Z") with
          | none => (⟨400, "Invalid date format. Please use YYYY-MM-DD."⟩, events)
          | some ts =>
            let updated : StoredEvent :=
              { existing with
                title := b.title
                eventDate := ts
                startTime := b.startTime
                endTime := b.endTime
                description := b.description
                resources := b.resources
                responsible := b.responsible
                eventType := if b.eventType = "" then "Öffentlich" else b.eventType
                participantInfo := b.participantInfo }
            (⟨200, "Event updated successfully."⟩, storeSet events eventId updated)

/-- The JS value found at `req.body.password` after destructuring:
a string, absent (`undefined`), or some non-string JSON value. -/
inductive BodyVal
  | strVal (s : String)
  | missing
  | nonStringVal
deriving DecidableEq

/-- Response of POST /api/auth/check: status, error message, `isValid`. -/
structure CheckOut where
  status : Nat
  error : Option String
  isValid : Option Bool
deriving DecidableEq

/-- POST /api/auth/check (`server.js`): the `!APP_PASSWORD`
configuration check runs before the `typeof userPassword !== 'string'`
body check; then plain `===` comparison. -/
def authCheck (appPassword : String) (userPassword : BodyVal) : CheckOut :=
  if appPassword = "" then ⟨500, some "Server configuration error.", none⟩
  else
    match userPassword with
    | .strVal s => ⟨200, none, some (s == appPassword)⟩
    | _ => ⟨400, some "Password missing or invalid format.", none⟩

/-! ### Event API, session revision (part_002)

The latest revision adds `express-session` (Firestore-backed session
store, cookie `maxAge: 1000 * 60 * 60`) and the `isAuthenticated`
middleware in front of every mutating route.  The PUT handler now also
accepts a replacement image and normalizes the `imageUrl` field of its
update payload (`undefined` → key dropped, falsy → `FieldValue.delete()`,
string → set). -/

/-- Cookie `maxAge: 1000 * 60 * 60` from the session middleware config. -/
def sessionCookieMaxAgeMs : Nat := 1000 * 60 * 60

/-- A server-held session: the flag the gate reads, the minimal role
info stored on login, and the cookie expiry it was issued with. -/
structure Session where
  isAuthenticated : Bool
  role : String
  cookieMaxAgeMs : Nat
deriving DecidableEq

/-- `req.session && req.session.isAuthenticated` (the `isAuthenticated`
middleware's test; `none` is a request with no session). -/
def sessionAuthed : Option Session → Bool
  | some s => s.isAuthenticated
  | none => false

/-- The 401 sent by the `isAuthenticated` middleware. -/
def unauthorizedResponse : ApiResponse := ⟨401, "Unauthorized. Please log in first."⟩

/-- The JS value of a document's `imageUrl` field: absent
(`undefined` on read), explicit `null`, or a URL string. -/
inductive StoredImg
  | fieldAbsent
  | nullValue
  | urlValue (s : String)
deriving DecidableEq

/-- JS truthiness of the stored `imageUrl` value. -/
def imgTruthy : StoredImg → Bool
  | .urlValue s => !(s == "")
  | _ => false

/-- The string passed to `deleteFromGcs` (callers only pass truthy values). -/
def imgString : StoredImg → String
  | .urlValue s => s
  | _ => ""

/-- The JS value of the `imageUrlToUpdate` variable in the PUT handler. -/
inductive ImgVal
  | undef
  | nullV
  | strV (s : String)
deriving DecidableEq

/-- Reading `existingData.imageUrl` into a JS variable. -/
def readImg : StoredImg → ImgVal
  | .fieldAbsent => .undef
  | .nullValue => .nullV
  | .urlValue s => .strV s

/-- What the update payload finally does to the `imageUrl` field. -/
inductive ImgUpdate
  | keepField
  | removeField
  | setField (s : String)
deriving DecidableEq

/-- Net effect of the payload-cleanup loop and the trailing
`if (!imageUrlToUpdate && 'imageUrl' in updatePayload)` check:
`undefined` → the key is deleted from the payload (stored field kept);
`null` or `''` (falsy) → `FieldValue.delete()` (stored field removed);
a nonempty string → set. -/
def imgUpdateOf : ImgVal → ImgUpdate
  | .undef => .keepField
  | .nullV => .removeField
  | .strV s => if s = "" then .removeField else .setField s

/-- Firestore `update` semantics on the `imageUrl` field. -/
def applyImgUpdate (old : StoredImg) : ImgUpdate → StoredImg
  | .keepField => old
  | .removeField => .fieldAbsent
  | .setField s => .urlValue s

/-- A stored event document (session revision): POST writes
`imageUrl: null` when no image is uploaded, and PUT may remove the
field, so the three JS states are kept apart. -/
structure StoredEventS where
  title : String
  eventDate : Int
  startTime : String
  endTime : String
  description : String
  resources : String
  responsible : String
  eventType : String
  participantInfo : String
  imageUrl : StoredImg
  createdAt : Int
deriving DecidableEq

/-- The events collection of the session revision. -/
abbrev EventStoreS := List (String × StoredEventS)

/-- Result of a session-revision handler. -/
structure OutS where
  response : ApiResponse
  events : EventStoreS
  blobs : List String

/-- POST /api/events (session revision): `isAuthenticated` runs before
multer and before any validation or store access; then the `server.js`
create flow with `imageUrl: null` when no file is attached. -/
def postEventS (jsParse : String → Option Int) (now : Int) (uploadTime : Nat)
    (newId : String) (sess : Option Session) (body : EventBody)
    (file : Option UploadFile) (events : EventStoreS) (blobs : List String) : OutS :=
  if sessionAuthed sess = false then ⟨unauthorizedResponse, events, blobs⟩
  else if body.title = "" ∨ body.eventDate = "" then
    ⟨⟨400, "Title and Date are required fields."⟩, events, blobs⟩
  else
    let upload :=
      match file with
      | some f =>
        (StoredImg.urlValue (uploadUrl uploadTime f.originalname),
          uniqueFilename uploadTime f.originalname :: blobs)
      | none => (StoredImg.nullValue, blobs)
    match jsParse (body.eventDate ++ "T00:00:00Z") with
    | none => ⟨⟨400, "Invalid date format. Please use YYYY-MM-DD."⟩, events, upload.2⟩
    | some ts =>
      let newEvent : StoredEventS :=
        { title := body.title
          eventDate := ts
          startTime := body.startTime
          endTime := body.endTime
          description := body.description
          resources := body.resources
          responsible := body.responsible
          eventType := if body.eventType = "" then "Öffentlich" else body.eventType
          participantInfo := body.participantInfo
          imageUrl := upload.1
          createdAt := now }
      ⟨⟨201, "Event added successfully."⟩, events ++ [(newId, newEvent)], upload.2⟩

/-- PUT /api/events/:id (session revision): auth gate, id/body
validation, existence check, optional image replacement (old blob
deletion is best-effort), date conversion, then one merged document
write whose payload never contains `createdAt`. -/
def putEventS (jsParse : String → Option Int) (uploadTime : Nat) (gcsFail : Bool)
    (sess : Option Session) (eventId : String) (body : EventBody)
    (file : Option UploadFile) (events : EventStoreS) (blobs : List String) : OutS :=
  if sessionAuthed sess = false then ⟨unauthorizedResponse, events, blobs⟩
  else if eventId = "" then ⟨⟨400, "Event ID missing."⟩, events, blobs⟩
  else if body.title = "" ∨ body.eventDate = "" then
    ⟨⟨400, "Invalid data or Title/Date missing."⟩, events, blobs⟩
  else
    match lookupE events eventId with
    | none => ⟨⟨404, "Event not found."⟩, events, blobs⟩
    | some existing =>
      let imgStep :=
        match file with
        | some f =>
          let blobsA :=
            if imgTruthy existing.imageUrl then
              (deleteFromGcs gcsFail blobs (imgString existing.imageUrl)).1
            else blobs
          (ImgVal.strV (uploadUrl uploadTime f.originalname),
            uniqueFilename uploadTime f.originalname :: blobsA)
        | none => (readImg existing.imageUrl, blobs)
      match jsParse (body.eventDate ++ "T00:00:00Z") with
      | none => ⟨⟨400, "Invalid date format. Please use YYYY-MM-DD."⟩, events, imgStep.2⟩
      | some ts =>
        let updated : StoredEventS :=
          { title := body.title
            eventDate := ts
            startTime := body.startTime
            endTime := body.endTime
            description := body.description
            resources := body.resources
            responsible := body.responsible
            eventType := if body.eventType = "" then "Öffentlich" else body.eventType
            participantInfo := body.participantInfo
            imageUrl := applyImgUpdate existing.imageUrl (imgUpdateOf imgStep.1)
            createdAt := existing.createdAt }
        ⟨⟨200, "Event updated successfully."⟩, storeSet events eventId updated, imgStep.2⟩

/-- DELETE /api/events/:id (session revision): auth gate, existence
check, best-effort blob deletion of any attached image, document
deletion. -/
def deleteEventS (gcsFail : Bool) (sess : Option Session) (eventId : String)
    (events : EventStoreS) (blobs : List String) : OutS :=
  if sessionAuthed sess = false then ⟨unauthorizedResponse, events, blobs⟩
  else if eventId = "" then ⟨⟨400, "Event ID missing."⟩, events, blobs⟩
  else
    match lookupE events eventId with
    | some found =>
      let blobs1 :=
        if imgTruthy found.imageUrl then
          (deleteFromGcs gcsFail blobs (imgString found.imageUrl)).1
        else blobs
      ⟨⟨200, "Event deleted successfully."⟩, storeRemove events eventId, blobs1⟩
    | none => ⟨⟨404, "Event not found."⟩, events, blobs⟩

/-- POST /api/login: `!APP_PASSWORD` → generic 500;
`password && password === APP_PASSWORD` → authenticated session with
`user = { role: 'admin' }` and the configured cookie expiry; otherwise
401 with no session change.  (A failing session-store save surfaces as
500 and is not modelled.) -/
def loginHandler (appPassword : String) (password : String)
    (sess : Option Session) : ApiResponse × Option Session :=
  if appPassword = "" then (⟨500, "Server configuration error."⟩, sess)
  else if password ≠ "" ∧ password = appPassword then
    (⟨200, "Login successful."⟩, some ⟨true, "admin", sessionCookieMaxAgeMs⟩)
  else (⟨401, "Invalid password."⟩, sess)

/-! ### Association-store lemmas -/

theorem storeSet_cons {α : Type} (k : String) (w : α) (t : List (String × α))
    (key : String) (v : α) :
    storeSet ((k, w) :: t) key v =
      (if k = key then (key, v) else (k, w)) :: storeSet t key v := rfl

theorem lookupE_cons {α : Type} (k : String) (w : α) (t : List (String × α))
    (key : String) :
    lookupE ((k, w) :: t) key = if k = key then some w else lookupE t key := rfl

theorem lookupE_storeSet_self {α : Type} (l : List (String × α)) (key : String)
    (v : α) (h : (lookupE l key).isSome) :
    lookupE (storeSet l key v) key = some v := by
  induction l with
  | nil => simp [lookupE] at h
  | cons p t ih =>
    obtain ⟨k, w⟩ := p
    rw [storeSet_cons]
    by_cases hk : k = key
    · rw [if_pos hk, lookupE_cons, if_pos rfl]
    · rw [if_neg hk, lookupE_cons, if_neg hk]
      rw [lookupE_cons, if_neg hk] at h
      exact ih h

theorem lookupE_storeSet_ne {α : Type} (l : List (String × α)) (key j : String)
    (v : α) (hj : j ≠ key) :
    lookupE (storeSet l key v) j = lookupE l j := by
  induction l with
  | nil => rfl
  | cons p t ih =>
    obtain ⟨k, w⟩ := p
    rw [storeSet_cons, lookupE_cons]
    by_cases hk : k = key
    · rw [if_pos hk, lookupE_cons, if_neg (fun h => hj h.symm),
        if_neg (fun h => hj (hk ▸ h.symm))]
      exact ih
    · rw [if_neg hk, lookupE_cons]
      by_cases hkj : k = j
      · rw [if_pos hkj, if_pos hkj]
      · rw [if_neg hkj, if_neg hkj]
        exact ih

/-! ### C3: authentication gate precedes everything -/

/-- C3: every mutating Event API call (create, update, delete) made
without a valid authenticated session yields the 401 "unauthorized"
response — for every request body, file, id and store, i.e. before any
validation or store access can matter — and leaves the event store (and
the blob store) unchanged. -/
theorem mutating_calls_require_auth (jsParse : String → Option Int) (now : Int)
    (uploadTime : Nat) (newId : String) (gcsFail : Bool) (sess : Option Session)
    (eventId : String) (body : EventBody) (file : Option UploadFile)
    (events : EventStoreS) (blobs : List String)
    (h : sessionAuthed sess = false) :
    postEventS jsParse now uploadTime newId sess body file events blobs =
      ⟨unauthorizedResponse, events, blobs⟩ ∧
    putEventS jsParse uploadTime gcsFail sess eventId body file events blobs =
      ⟨unauthorizedResponse, events, blobs⟩ ∧
    deleteEventS gcsFail sess eventId events blobs =
      ⟨unauthorizedResponse, events, blobs⟩ := by
  refine ⟨?_, ?_, ?_⟩ <;> simp [postEventS, putEventS, deleteEventS, h]

theorem mutating_calls_require_auth_witness :
    postEventS (fun _ => none) 0 0 "n" none
        ⟨"t", "2025-01-01", "", "", "", "", "", "", ""⟩ none [] [] =
      ⟨unauthorizedResponse, [], []⟩ ∧
    putEventS (fun _ => none) 0 false none "e1"
        ⟨"t", "2025-01-01", "", "", "", "", "", "", ""⟩ none [] [] =
      ⟨unauthorizedResponse, [], []⟩ ∧
    deleteEventS false none "e1" [] [] = ⟨unauthorizedResponse, [], []⟩ :=
  mutating_calls_require_auth (fun _ => none) 0 0 "n" false none "e1"
    ⟨"t", "2025-01-01", "", "", "", "", "", "", ""⟩ none [] [] rfl

/-! ### C4: present-but-unparseable dates -/

/-- C4 counterexample: a create request whose `eventDate` is present
(`"not-a-date"`) but unparseable, and whose `title` is missing, is
answered with the missing-field message itself — not with a message
distinct from it, contradicting the claim as stated. -/
theorem unparseable_date_distinct_cex :
    (postEvent (fun _ => none) 0 0 "id1"
        ⟨"", "not-a-date", "", "", "", "", "", "", ""⟩ none [] []).response =
      ⟨400, "Title and Date are required fields."⟩ := by decide

/-- C4 (amended): for every create request whose `title` is present and
whose `eventDate` is present but unparseable, and every update request
additionally targeting an existing record, the request is rejected with
the 400 "Invalid date format. Please use YYYY-MM-DD." response — a
message distinct from both missing-field messages — and the event store
is unchanged. -/
theorem unparseable_date_rejected (jsParse : String → Option Int) (now : Int)
    (uploadTime : Nat) (newId : String) (body : EventBody)
    (file : Option UploadFile) (events : EventStore) (blobs : List String)
    (eventId : String) (existing : StoredEvent)
    (htitle : body.title ≠ "") (hdate : body.eventDate ≠ "")
    (hbad : jsParse (body.eventDate ++ "T00:00:00Z") = none)
    (hid : eventId ≠ "") (hex : lookupE events eventId = some existing) :
    ((postEvent jsParse now uploadTime newId body file events blobs).response =
        ⟨400, "Invalid date format. Please use YYYY-MM-DD."⟩ ∧
      (postEvent jsParse now uploadTime newId body file events blobs).events =
        events) ∧
    putEvent jsParse eventId (some body) events =
      (⟨400, "Invalid date format. Please use YYYY-MM-DD."⟩, events) ∧
    ("Invalid date format. Please use YYYY-MM-DD." ≠
        "Title and Date are required fields." ∧
      "Invalid date format. Please use YYYY-MM-DD." ≠
        "Invalid data or Title/Date missing.") := by
  refine ⟨⟨?_, ?_⟩, ?_, by decide⟩ <;>
    simp [postEvent, putEvent, htitle, hdate, hbad, hid, hex]

theorem unparseable_date_rejected_witness :
    (postEvent (fun _ => none) 0 0 "id1"
        ⟨"T", "not-a-date", "", "", "", "", "", "", ""⟩ none [] []).response =
      ⟨400, "Invalid date format. Please use YYYY-MM-DD."⟩ ∧
    (putEvent (fun _ => none) "e1"
        (some ⟨"T", "not-a-date", "", "", "", "", "", "", ""⟩)
        [("e1", ⟨"old", 0, "", "", "", "", "", "Öffentlich", "", none, 7⟩)]).1 =
      ⟨400, "Invalid date format. Please use YYYY-MM-DD."⟩ := by
  have h := unparseable_date_rejected (fun _ => none) 0 0 "id1"
    ⟨"T", "not-a-date", "", "", "", "", "", "", ""⟩ none
    [("e1", ⟨"old", 0, "", "", "", "", "", "Öffentlich", "", none, 7⟩)] []
    "e1" ⟨"old", 0, "", "", "", "", "", "Öffentlich", "", none, 7⟩
    (by decide) (by decide) rfl (by decide) (by decide)
  exact ⟨h.1.1, by rw [h.2.1]⟩

/-! ### C5: update preserves `createdAt`, `id`, and the untouched fields -/

/-- C5: a successful update (`server.js` PUT) answers 200 and replaces
the record under the same id with one whose `createdAt` and `imageUrl`
equal their previous values, whose nine mutable fields equal the mapped
request fields, and leaves every other id's record untouched; the
session revision's PUT likewise never changes `createdAt`. -/
theorem update_preserves_createdAt_and_id (jsParse : String → Option Int)
    (uploadTime : Nat) (gcsFail : Bool) (sess : Option Session)
    (events : EventStore) (eventsS : EventStoreS) (eventId : String)
    (b : EventBody) (existing : StoredEvent) (existingS : StoredEventS)
    (file : Option UploadFile) (blobs : List String) (ts : Int)
    (hid : eventId ≠ "") (htitle : b.title ≠ "") (hdate : b.eventDate ≠ "")
    (hex : lookupE events eventId = some existing)
    (hts : jsParse (b.eventDate ++ "T00:00:00Z") = some ts)
    (hauth : sessionAuthed sess = true)
    (hexS : lookupE eventsS eventId = some existingS) :
    (putEvent jsParse eventId (some b) events).1 =
      ⟨200, "Event updated successfully."⟩ ∧
    (∃ updated : StoredEvent,
      lookupE (putEvent jsParse eventId (some b) events).2 eventId = some updated ∧
      updated.createdAt = existing.createdAt ∧
      updated.imageUrl = existing.imageUrl ∧
      updated.title = b.title ∧
      updated.eventDate = ts ∧
      updated.startTime = b.startTime ∧
      updated.endTime = b.endTime ∧
      updated.description = b.description ∧
      updated.resources = b.resources ∧
      updated.responsible = b.responsible ∧
      updated.eventType = (if b.eventType = "" then "Öffentlich" else b.eventType) ∧
      updated.participantInfo = b.participantInfo) ∧
    (∀ j, j ≠ eventId →
      lookupE (putEvent jsParse eventId (some b) events).2 j = lookupE events j) ∧
    (∃ updatedS : StoredEventS,
      lookupE (putEventS jsParse uploadTime gcsFail sess eventId b file
        eventsS blobs).events eventId = some updatedS ∧
      updatedS.createdAt = existingS.createdAt) := by
  have hstore : (putEvent jsParse eventId (some b) events).2 =
      storeSet events eventId
        { existing with
          title := b.title
          eventDate := ts
          startTime := b.startTime
          endTime := b.endTime
          description := b.description
          resources := b.resources
          responsible := b.responsible
          eventType := if b.eventType = "" then "Öffentlich" else b.eventType
          participantInfo := b.participantInfo } := by
    simp [putEvent, hid, htitle, hdate, hex, hts]
  have hstoreS : (putEventS jsParse uploadTime gcsFail sess eventId b file
      eventsS blobs).events =
      storeSet eventsS eventId
        { title := b.title
          eventDate := ts
          startTime := b.startTime
          endTime := b.endTime
          description := b.description
          resources := b.resources
          responsible := b.responsible
          eventType := if b.eventType = "" then "Öffentlich" else b.eventType
          participantInfo := b.participantInfo
          imageUrl := applyImgUpdate existingS.imageUrl (imgUpdateOf
            (match file with
              | some f => ImgVal.strV (uploadUrl uploadTime f.originalname)
              | none => readImg existingS.imageUrl))
          createdAt := existingS.createdAt } := by
    cases file <;> simp [putEventS, hauth, hid, htitle, hdate, hexS, hts]
  refine ⟨by simp [putEvent, hid, htitle, hdate, hex, hts], ?_, ?_, ?_⟩
  · rw [hstore]
    exact ⟨_, lookupE_storeSet_self events eventId _ (by simp [hex]),
      rfl, rfl, rfl, rfl, rfl, rfl, rfl, rfl, rfl, rfl, rfl⟩
  · intro j hj
    rw [hstore]
    exact lookupE_storeSet_ne events eventId j _ hj
  · rw [hstoreS]
    exact ⟨_, lookupE_storeSet_self eventsS eventId _ (by simp [hexS]), rfl⟩

theorem update_preserves_createdAt_and_id_witness :
    (putEvent (fun _ => some 99) "e1"
        (some ⟨"New", "2025-06-01", "10:00", "", "", "", "", "", ""⟩)
        [("e1", ⟨"Old", 0, "", "", "", "", "", "Öffentlich", "", some "u", 7⟩)]).1 =
      ⟨200, "Event updated successfully."⟩ := by
  have h := update_preserves_createdAt_and_id (fun _ => some 99) 0 false
    (some ⟨true, "admin", 3600000⟩)
    [("e1", ⟨"Old", 0, "", "", "", "", "", "Öffentlich", "", some "u", 7⟩)]
    [("e1", ⟨"Old", 0, "", "", "", "", "", "Öffentlich", "", StoredImg.nullValue, 7⟩)]
    "e1" ⟨"New", "2025-06-01", "10:00", "", "", "", "", "", ""⟩
    ⟨"Old", 0, "", "", "", "", "", "Öffentlich", "", some "u", 7⟩
    ⟨"Old", 0, "", "", "", "", "", "Öffentlich", "", StoredImg.nullValue, 7⟩
    none [] 99 (by decide) (by decide) (by decide) (by decide) rfl rfl (by decide)
  exact h.1

/-! ### C6: login succeeds exactly on the configured secret -/

/-- C6: with a configured secret, `login(password)` succeeds (200,
creating a session marked authenticated with the configured 1-hour
cookie expiry and `role: 'admin'`) exactly when the supplied text
equals the secret by plain string equality; on mismatch it answers 401
"Invalid password." and changes no session; with the secret
unconfigured it answers a generic 500 "Server configuration error."
(for every supplied password) and changes no session. -/
theorem login_matches_secret (secret pw : String) (sess : Option Session) :
    (secret = "" →
      loginHandler secret pw sess = (⟨500, "Server configuration error."⟩, sess)) ∧
    (secret ≠ "" →
      (loginHandler secret pw sess =
        (⟨200, "Login successful."⟩, some ⟨true, "admin", 3600000⟩) ↔ pw = secret)) ∧
    (secret ≠ "" → pw ≠ secret →
      loginHandler secret pw sess = (⟨401, "Invalid password."⟩, sess)) := by
  have hmax : sessionCookieMaxAgeMs = 3600000 := by norm_num [sessionCookieMaxAgeMs]
  refine ⟨fun h => by simp [loginHandler, h], fun h => ?_, fun h hne => ?_⟩
  · constructor
    · intro heq
      by_cases hpw : pw = secret
      · exact hpw
      · exfalso
        have hcond : ¬(pw ≠ "" ∧ pw = secret) := fun hc => hpw hc.2
        simp [loginHandler, h, hcond] at heq
    · intro hpw
      subst hpw
      simp [loginHandler, h, hmax]
  · have hcond : ¬(pw ≠ "" ∧ pw = secret) := fun hc => hne hc.2
    simp [loginHandler, h, hcond]

theorem login_matches_secret_witness :
    loginHandler "hunter2" "hunter2" none =
      (⟨200, "Login successful."⟩, some ⟨true, "admin", 3600000⟩) ∧
    loginHandler "hunter2" "wrong" none = (⟨401, "Invalid password."⟩, none) ∧
    loginHandler "" "anything" none =
      (⟨500, "Server configuration error."⟩, none) :=
  ⟨((login_matches_secret "hunter2" "hunter2" none).2.1 (by decide)).mpr rfl,
   (login_matches_secret "hunter2" "wrong" none).2.2 (by decide) (by decide),
   (login_matches_secret "" "anything" none).1 rfl⟩

/-! ### C8: guarded, error-swallowing blob deletion -/

/-- C8: a deletion reference that does not start with this adapter's
container URL prefix is a warned no-op (blob store untouched, nothing
attempted); and a deletion that is attempted and fails never propagates:
the record-level DELETE still answers 200 and removes the record, for
any backend outcome. -/
theorem blob_delete_guard_and_swallow (backendFails gcsFail : Bool)
    (blobs : List String) (fileUrl : String) (sess : Option Session)
    (eventId : String) (events : EventStoreS) (found : StoredEventS)
    (hurl : urlMatchesBucket fileUrl = false)
    (hauth : sessionAuthed sess = true) (hid : eventId ≠ "")
    (hfound : lookupE events eventId = some found) :
    deleteFromGcs backendFails blobs fileUrl = (blobs, .warnedInvalid) ∧
    (deleteEventS gcsFail sess eventId events blobs).response =
      ⟨200, "Event deleted successfully."⟩ ∧
    (deleteEventS gcsFail sess eventId events blobs).events =
      storeRemove events eventId := by
  refine ⟨?_, ?_, ?_⟩
  · simp [deleteFromGcs, hurl]
  · simp [deleteEventS, hauth, hid, hfound]
  · simp [deleteEventS, hauth, hid, hfound]

theorem blob_delete_guard_and_swallow_witness :
    deleteFromGcs true ["1-a.png"] "https://storage.googleapis.com/other/1-a.png" =
      (["1-a.png"], .warnedInvalid) ∧
    (deleteEventS true (some ⟨true, "admin", 3600000⟩) "e1"
        [("e1", ⟨"t", 0, "", "", "", "", "", "Öffentlich", "",
          StoredImg.urlValue "https://storage.googleapis.com/ebaplanner_event_images/1-a.png", 0⟩)]
        ["1-a.png"]).response = ⟨200, "Event deleted successfully."⟩ := by
  have h := blob_delete_guard_and_swallow true true ["1-a.png"]
    "https://storage.googleapis.com/other/1-a.png" (some ⟨true, "admin", 3600000⟩)
    "e1"
    [("e1", ⟨"t", 0, "", "", "", "", "", "Öffentlich", "",
      StoredImg.urlValue "https://storage.googleapis.com/ebaplanner_event_images/1-a.png", 0⟩)]
    ⟨"t", 0, "", "", "", "", "", "Öffentlich", "",
      StoredImg.urlValue "https://storage.googleapis.com/ebaplanner_event_images/1-a.png", 0⟩
    (by decide) rfl (by decide) (by decide)
  exact ⟨h.1, h.2.1⟩

/-! ### C9: uniqueness of generated blob object names -/

/-- C9 counterexample: two uploads in the same `Date.now()` millisecond
whose original filenames `"a b.png"` and `"a_b.png"` differ get the very
same generated object name, so uploads can collide. -/
theorem unique_filename_collision_cex :
    uniqueFilename 0 "a b.png" = uniqueFilename 0 "a_b.png" := by decide

theorem append_dash_inj : ∀ l1 l2 r1 r2 : List Char,
    (∀ c ∈ l1, c.isDigit = true) → (∀ c ∈ l2, c.isDigit = true) →
    l1 ++ '-' :: r1 = l2 ++ '-' :: r2 → l1 = l2 ∧ r1 = r2 := by
  intro l1
  induction l1 with
  | nil =>
    intro l2 r1 r2 _ h2 h
    cases l2 with
    | nil => simpa using h
    | cons b t2 =>
      exfalso
      simp only [List.nil_append, List.cons_append, List.cons.injEq] at h
      have := h2 b (List.mem_cons_self b t2)
      rw [← h.1] at this
      exact absurd this (by decide)
  | cons a t ih =>
    intro l2 r1 r2 h1 h2 h
    cases l2 with
    | nil =>
      exfalso
      simp only [List.cons_append, List.nil_append, List.cons.injEq] at h
      have := h1 a (List.mem_cons_self a t)
      rw [h.1] at this
      exact absurd this (by decide)
    | cons b t2 =>
      simp only [List.cons_append, List.cons.injEq] at h
      obtain ⟨rfl, htail⟩ := h
      have hr := ih t2 r1 r2 (fun c hc => h1 c (List.mem_cons_of_mem _ hc))
        (fun c hc => h2 c (List.mem_cons_of_mem _ hc)) htail
      exact ⟨by rw [hr.1], hr.2⟩

/-- C9 (amended): two uploads get the same generated object name exactly
when they happen in the same `Date.now()` millisecond and their
space-sanitized original filenames coincide; in particular uploads at
distinct times never collide. -/
theorem unique_filename_inj (t1 t2 : Nat) (n1 n2 : String) :
    uniqueFilename t1 n1 = uniqueFilename t2 n2 ↔
      (t1 = t2 ∧ sanitizeName n1 = sanitizeName n2) := by
  constructor
  · intro h
    have hd := congrArg String.data h
    simp only [uniqueFilename, String.data_append] at hd
    rw [List.append_assoc, List.append_assoc] at hd
    simp only [List.singleton_append] at hd
    have hsplit := append_dash_inj _ _ _ _
      (natDecimal_all_digit t1) (natDecimal_all_digit t2) hd
    exact ⟨natDecimal_injective hsplit.1, String.ext hsplit.2⟩
  · rintro ⟨rfl, hs⟩
    simp [uniqueFilename, hs]

/-! ### C10: configuration check precedes body-format check -/

/-- C10: in POST /api/auth/check the `!APP_PASSWORD` configuration check
runs first, so with the secret unconfigured every request body — a
string, a missing field, or a non-string value — gets the 500
server-configuration response, while with a configured secret the
malformed bodies get 400. -/
theorem auth_check_config_first (secret : String) (body : BodyVal) :
    authCheck "" body = ⟨500, some "Server configuration error.", none⟩ ∧
    (secret ≠ "" →
      authCheck secret .missing =
        ⟨400, some "Password missing or invalid format.", none⟩ ∧
      authCheck secret .nonStringVal =
        ⟨400, some "Password missing or invalid format.", none⟩) := by
  constructor
  · simp [authCheck]
  · intro h
    constructor <;> simp [authCheck, h]

theorem auth_check_config_first_witness :
    authCheck "" BodyVal.nonStringVal =
      ⟨500, some "Server configuration error.", none⟩ ∧
    authCheck "pw" BodyVal.nonStringVal =
      ⟨400, some "Password missing or invalid format.", none⟩ :=
  ⟨(auth_check_config_first "pw" BodyVal.nonStringVal).1,
   ((auth_check_config_first "pw" BodyVal.nonStringVal).2 (by decide)).2⟩

/-! ### C7: range-check fallthrough and total failure -/

/-- Strategy 1 yields nothing: no `D.M.YYYY` match, or a match whose
components fail the range checks. -/
def dmyFails (ds : List Char) : Bool :=
  match matchDMY ds with
  | none => true
  | some (d, m, y) => !rangeOk d m y

/-- Strategy 2 yields nothing. -/
def ymdFails (ds : List Char) : Bool :=
  match matchYMD ds with
  | none => true
  | some (d, m, y) => !rangeOk d m y

/-- Strategy 3 yields nothing. -/
def mdyFails (ds : List Char) : Bool :=
  match matchMDY ds with
  | none => true
  | some (d, m, y) => !rangeOk d m y

theorem tryDMY_of_fails (fb : String → Option GenericDate) (ds : List Char)
    (h : dmyFails ds = true) : tryDMY fb ds = tryYMD fb ds := by
  unfold tryDMY
  unfold dmyFails at h
  cases hm : matchDMY ds with
  | none => rfl
  | some v =>
    obtain ⟨d, m, y⟩ := v
    rw [hm] at h
    simp only [Bool.not_eq_true'] at h
    simp [h]

theorem tryYMD_of_fails (fb : String → Option GenericDate) (ds : List Char)
    (h : ymdFails ds = true) : tryYMD fb ds = tryMDY fb ds := by
  unfold tryYMD
  unfold ymdFails at h
  cases hm : matchYMD ds with
  | none => rfl
  | some v =>
    obtain ⟨d, m, y⟩ := v
    rw [hm] at h
    simp only [Bool.not_eq_true'] at h
    simp [h]

theorem tryMDY_of_fails (fb : String → Option GenericDate) (ds : List Char)
    (h : mdyFails ds = true) : tryMDY fb ds = tryFallback fb ds := by
  unfold tryMDY
  unfold mdyFails at h
  cases hm : matchMDY ds with
  | none => rfl
  | some v =>
    obtain ⟨d, m, y⟩ := v
    rw [hm] at h
    simp only [Bool.not_eq_true'] at h
    simp [h]

theorem matchers_nil :
    matchDMY [] = none ∧ matchYMD [] = none ∧ matchMDY [] = none := by decide

/-- C7: the Date Normalizer is total; a numeric form that matches but
fails the range checks (`1900 < y`, `1 ≤ m ≤ 12`, `1 ≤ d ≤ 31`) is a
parse failure that falls through to the next strategy in priority
order, and when every strategy fails (including the generic fallback)
the function returns the "no date" value `none` instead of an error. -/
theorem normalizer_fallthrough_total (fb : String → Option GenericDate)
    (s : String) :
    (∀ d m y, matchDMY (jsTrim s.data) = some (d, m, y) →
      rangeOk d m y = false →
      parseAndFormatDate fb s = tryYMD fb (jsTrim s.data)) ∧
    (∀ d m y, dmyFails (jsTrim s.data) = true →
      matchYMD (jsTrim s.data) = some (d, m, y) → rangeOk d m y = false →
      parseAndFormatDate fb s = tryMDY fb (jsTrim s.data)) ∧
    (∀ d m y, dmyFails (jsTrim s.data) = true → ymdFails (jsTrim s.data) = true →
      matchMDY (jsTrim s.data) = some (d, m, y) → rangeOk d m y = false →
      parseAndFormatDate fb s = tryFallback fb (jsTrim s.data)) ∧
    (dmyFails (jsTrim s.data) = true → ymdFails (jsTrim s.data) = true →
      mdyFails (jsTrim s.data) = true → fb ⟨jsTrim s.data⟩ = none →
      parseAndFormatDate fb s = none) := by
  by_cases hs : s = ""
  · subst hs
    have hnil : jsTrim (String.data "") = [] := by decide
    refine ⟨?_, ?_, ?_, ?_⟩
    · intro d m y hm _
      rw [hnil, matchers_nil.1] at hm
      exact Option.noConfusion hm
    · intro d m y _ hm _
      rw [hnil, matchers_nil.2.1] at hm
      exact Option.noConfusion hm
    · intro d m y _ _ hm _
      rw [hnil, matchers_nil.2.2] at hm
      exact Option.noConfusion hm
    · intro _ _ _ _
      simp [parseAndFormatDate]
  · by_cases hds : jsTrim s.data = []
    · refine ⟨?_, ?_, ?_, ?_⟩
      · intro d m y hm _
        rw [hds, matchers_nil.1] at hm
        exact Option.noConfusion hm
      · intro d m y _ hm _
        rw [hds, matchers_nil.2.1] at hm
        exact Option.noConfusion hm
      · intro d m y _ _ hm _
        rw [hds, matchers_nil.2.2] at hm
        exact Option.noConfusion hm
      · intro _ _ _ _
        simp [parseAndFormatDate, hs, hds]
    · have hp : parseAndFormatDate fb s = tryDMY fb (jsTrim s.data) := by
        simp [parseAndFormatDate, hs, hds]
      refine ⟨?_, ?_, ?_, ?_⟩
      · intro d m y hm hr
        rw [hp, tryDMY_of_fails fb _ (by simp [dmyFails, hm, hr])]
      · intro d m y h1 hm hr
        rw [hp, tryDMY_of_fails fb _ h1,
          tryYMD_of_fails fb _ (by simp [ymdFails, hm, hr])]
      · intro d m y h1 h2 hm hr
        rw [hp, tryDMY_of_fails fb _ h1, tryYMD_of_fails fb _ h2,
          tryMDY_of_fails fb _ (by simp [mdyFails, hm, hr])]
      · intro h1 h2 h3 hfb
        rw [hp, tryDMY_of_fails fb _ h1, tryYMD_of_fails fb _ h2,
          tryMDY_of_fails fb _ h3]
        simp [tryFallback, hfb]

theorem normalizer_fallthrough_total_witness :
    parseAndFormatDate (fun _ => none) "99.99.2025" =
      tryYMD (fun _ => none) (jsTrim "99.99.2025".data) ∧
    parseAndFormatDate (fun _ => none) "not-a-date" = none :=
  ⟨(normalizer_fallthrough_total (fun _ => none) "99.99.2025").1 99 99 2025
      (by decide) (by decide),
   (normalizer_fallthrough_total (fun _ => none) "not-a-date").2.2.2
      (by decide) (by decide) (by decide) rfl⟩

/-! ### C2: the three numeric representations agree

The lemmas below evaluate the embedded regex parsers on inputs of the
shapes `D.M.YYYY`, `YYYY-M-D` and `M/D/YYYY` built from arbitrary digit
strings. -/

/-- The head of the remaining input, if any, is not a digit (so a greedy
digit group stops exactly at the split point). -/
def headNotDigit : List Char → Prop
  | [] => True
  | c :: _ => c.isDigit = false

theorem dot_not_digit : ('.' : Char).isDigit = false := by decide

theorem dash_not_digit : ('-' : Char).isDigit = false := by decide

theorem slash_not_digit : ('/' : Char).isDigit = false := by decide

theorem digit_not_ws {c : Char} (h : c.isDigit = true) : c.isWhitespace = false := by
  by_contra hw
  rw [Bool.not_eq_false] at hw
  simp only [Char.isWhitespace, Bool.or_eq_true, decide_eq_true_eq] at hw
  rcases hw with ((rfl | rfl) | rfl) | rfl <;> exact absurd h (by decide)

theorem ne_of_digit {c d : Char} (h : c.isDigit = true) (hd : d.isDigit = false) :
    c ≠ d := by
  intro he
  rw [he, hd] at h
  exact Bool.noConfusion h

theorem dropWhile_eq_self_of_all {p : Char → Bool} {l : List Char}
    (h : ∀ c ∈ l, p c = false) : l.dropWhile p = l := by
  cases l with
  | nil => rfl
  | cons a t =>
    rw [List.dropWhile_cons, h a (List.mem_cons_self a t)]
    simp

theorem jsTrim_eq_self {l : List Char} (h : ∀ c ∈ l, c.isWhitespace = false) :
    jsTrim l = l := by
  unfold jsTrim
  rw [dropWhile_eq_self_of_all h,
    dropWhile_eq_self_of_all (fun c hc => h c (List.mem_reverse.mp hc)),
    List.reverse_reverse]

theorem digitsVal_singleton (a : Char) : digitsVal [a] = digitVal a := by
  simp [digitsVal]

theorem digitsVal_pair (a b : Char) :
    digitsVal [a, b] = 10 * digitVal a + digitVal b := by
  simp [digitsVal]

theorem length_eq_four {α : Type} {l : List α} (h : l.length = 4) :
    ∃ a b c d, l = [a, b, c, d] := by
  cases l with
  | nil => simp at h
  | cons a t =>
    cases t with
    | nil => simp at h
    | cons b t2 =>
      cases t2 with
      | nil => simp at h
      | cons c t3 =>
        cases t3 with
        | nil => simp at h
        | cons d t4 =>
          cases t4 with
          | nil => exact ⟨a, b, c, d, rfl⟩
          | cons e t5 => simp at h

theorem take12_digits (dd rest : List Char) (h : ∀ c ∈ dd, c.isDigit = true)
    (hl : dd.length = 1 ∨ dd.length = 2) (hhead : headNotDigit rest) :
    take12 (dd ++ rest) = some (digitsVal dd, rest) := by
  rcases hl with h1 | h2
  · obtain ⟨a, rfl⟩ := List.length_eq_one.mp h1
    have ha := h a (List.mem_cons_self a [])
    cases rest with
    | nil => simp [take12, ha, digitsVal_singleton]
    | cons r rs =>
      have hr : r.isDigit = false := hhead
      simp [take12, ha, hr, digitsVal_singleton]
  · obtain ⟨a, b, rfl⟩ := List.length_eq_two.mp h2
    have ha := h a (by simp)
    have hb := h b (by simp)
    simp [take12, ha, hb, digitsVal_pair]

theorem take12_exact (dd : List Char) (h : ∀ c ∈ dd, c.isDigit = true)
    (hl : dd.length = 1 ∨ dd.length = 2) :
    take12 dd = some (digitsVal dd, []) := by
  have := take12_digits dd [] h hl trivial
  rwa [List.append_nil] at this

theorem take4_digits (yy rest : List Char) (h : ∀ c ∈ yy, c.isDigit = true)
    (hl : yy.length = 4) : take4 (yy ++ rest) = some (digitsVal yy, rest) := by
  obtain ⟨c1, c2, c3, c4, rfl⟩ := length_eq_four hl
  have h1 := h c1 (by simp)
  have h2 := h c2 (by simp)
  have h3 := h c3 (by simp)
  have h4 := h c4 (by simp)
  simp [take4, h1, h2, h3, h4]

theorem take4_exact (yy : List Char) (h : ∀ c ∈ yy, c.isDigit = true)
    (hl : yy.length = 4) : take4 yy = some (digitsVal yy, []) := by
  have := take4_digits yy [] h hl
  rwa [List.append_nil] at this

theorem expectChar_cons_self (c : Char) (xs : List Char) :
    expectChar c (c :: xs) = some xs := by
  simp [expectChar]

theorem mk_ne_empty {l : List Char} (h : l ≠ []) : (⟨l⟩ : String) ≠ "" := by
  intro he
  exact h (congrArg String.data he)

theorem parseAndFormatDate_mk (fb : String → Option GenericDate) (l : List Char)
    (hne : l ≠ []) (hnws : ∀ c ∈ l, c.isWhitespace = false) :
    parseAndFormatDate fb ⟨l⟩ = tryDMY fb l := by
  unfold parseAndFormatDate
  rw [if_neg (mk_ne_empty hne)]
  show (if jsTrim (String.mk l).data = [] then none
    else tryDMY fb (jsTrim (String.mk l).data)) = tryDMY fb l
  rw [show (String.mk l).data = l from rfl, jsTrim_eq_self hnws, if_neg hne]

theorem tryDMY_some (fb : String → Option GenericDate) (ds : List Char)
    {d m y : Nat} (hmatch : matchDMY ds = some (d, m, y))
    (hr : rangeOk d m y = true) : tryDMY fb ds = some (fmtYMD y m d) := by
  unfold tryDMY
  rw [hmatch]
  simp [hr]

theorem tryYMD_some (fb : String → Option GenericDate) (ds : List Char)
    {d m y : Nat} (hmatch : matchYMD ds = some (d, m, y))
    (hr : rangeOk d m y = true) : tryYMD fb ds = some (fmtYMD y m d) := by
  unfold tryYMD
  rw [hmatch]
  simp [hr]

theorem tryMDY_some (fb : String → Option GenericDate) (ds : List Char)
    {d m y : Nat} (hmatch : matchMDY ds = some (d, m, y))
    (hr : rangeOk d m y = true) : tryMDY fb ds = some (fmtYMD y m d) := by
  unfold tryMDY
  rw [hmatch]
  simp [hr]

theorem matchDMY_build (dd mm yy : List Char)
    (hd : ∀ c ∈ dd, c.isDigit = true) (hdl : dd.length = 1 ∨ dd.length = 2)
    (hm : ∀ c ∈ mm, c.isDigit = true) (hml : mm.length = 1 ∨ mm.length = 2)
    (hy : ∀ c ∈ yy, c.isDigit = true) (hyl : yy.length = 4) :
    matchDMY (dd ++ '.' :: (mm ++ '.' :: yy)) =
      some (digitsVal dd, digitsVal mm, digitsVal yy) := by
  simp only [matchDMY,
    take12_digits dd ('.' :: (mm ++ '.' :: yy)) hd hdl dot_not_digit,
    expectChar_cons_self,
    take12_digits mm ('.' :: yy) hm hml dot_not_digit,
    take4_exact yy hy hyl]
  simp

theorem matchYMD_build (dd mm yy : List Char)
    (hd : ∀ c ∈ dd, c.isDigit = true) (hdl : dd.length = 1 ∨ dd.length = 2)
    (hm : ∀ c ∈ mm, c.isDigit = true) (hml : mm.length = 1 ∨ mm.length = 2)
    (hy : ∀ c ∈ yy, c.isDigit = true) (hyl : yy.length = 4) :
    matchYMD (yy ++ '-' :: (mm ++ '-' :: dd)) =
      some (digitsVal dd, digitsVal mm, digitsVal yy) := by
  simp only [matchYMD,
    take4_digits yy ('-' :: (mm ++ '-' :: dd)) hy hyl,
    expectChar_cons_self,
    take12_digits mm ('-' :: dd) hm hml dash_not_digit,
    take12_exact dd hd hdl]

theorem matchMDY_build (dd mm yy : List Char)
    (hd : ∀ c ∈ dd, c.isDigit = true) (hdl : dd.length = 1 ∨ dd.length = 2)
    (hm : ∀ c ∈ mm, c.isDigit = true) (hml : mm.length = 1 ∨ mm.length = 2)
    (hy : ∀ c ∈ yy, c.isDigit = true) (hyl : yy.length = 4) :
    matchMDY (mm ++ '/' :: (dd ++ '/' :: yy)) =
      some (digitsVal dd, digitsVal mm, digitsVal yy) := by
  simp only [matchMDY,
    take12_digits mm ('/' :: (dd ++ '/' :: yy)) hm hml slash_not_digit,
    expectChar_cons_self,
    take12_digits dd ('/' :: yy) hd hdl slash_not_digit,
    take4_exact yy hy hyl]
  simp

theorem matchDMY_none_ymd (dd mm yy : List Char)
    (hy : ∀ c ∈ yy, c.isDigit = true) (hyl : yy.length = 4) :
    matchDMY (yy ++ '-' :: (mm ++ '-' :: dd)) = none := by
  obtain ⟨c1, c2, c3, c4, rfl⟩ := length_eq_four hyl
  have h1 := hy c1 (by simp)
  have h2 := hy c2 (by simp)
  have h3 := hy c3 (by simp)
  simp only [List.cons_append, List.nil_append]
  simp [matchDMY, take12, expectChar, h1, h2, ne_of_digit h3 dot_not_digit]

theorem matchDMY_none_mdy (dd mm yy : List Char)
    (hm : ∀ c ∈ mm, c.isDigit = true) (hml : mm.length = 1 ∨ mm.length = 2) :
    matchDMY (mm ++ '/' :: (dd ++ '/' :: yy)) = none := by
  simp only [matchDMY,
    take12_digits mm ('/' :: (dd ++ '/' :: yy)) hm hml slash_not_digit]
  simp [expectChar, show ('/' : Char) ≠ '.' from by decide]

theorem matchYMD_none_mdy (dd mm yy : List Char)
    (hm : ∀ c ∈ mm, c.isDigit = true) (hml : mm.length = 1 ∨ mm.length = 2)
    (hd : ∀ c ∈ dd, c.isDigit = true) (hdl : dd.length = 1 ∨ dd.length = 2) :
    matchYMD (mm ++ '/' :: (dd ++ '/' :: yy)) = none := by
  rcases hml with h1 | h2
  · obtain ⟨a, rfl⟩ := List.length_eq_one.mp h1
    rcases hdl with g1 | g2
    · obtain ⟨u, rfl⟩ := List.length_eq_one.mp g1
      simp [matchYMD, take4, slash_not_digit]
    · obtain ⟨u, v, rfl⟩ := List.length_eq_two.mp g2
      simp [matchYMD, take4, slash_not_digit]
  · obtain ⟨a, b, rfl⟩ := List.length_eq_two.mp h2
    rcases hdl with g1 | g2
    · obtain ⟨u, rfl⟩ := List.length_eq_one.mp g1
      simp [matchYMD, take4, slash_not_digit]
    · obtain ⟨u, v, rfl⟩ := List.length_eq_two.mp g2
      simp [matchYMD, take4, slash_not_digit]

theorem nws_of_parts {la lb lc : List Char} {s1 s2 : Char}
    (na : ∀ c ∈ la, c.isWhitespace = false)
    (nb : ∀ c ∈ lb, c.isWhitespace = false)
    (nc : ∀ c ∈ lc, c.isWhitespace = false)
    (hs1 : s1.isWhitespace = false) (hs2 : s2.isWhitespace = false) :
    ∀ c ∈ la ++ s1 :: (lb ++ s2 :: lc), c.isWhitespace = false := by
  intro c hc
  simp only [List.mem_append, List.mem_cons] at hc
  rcases hc with h | rfl | h | rfl | h
  exacts [na c h, hs1, nb c h, hs2, nc c h]

/-- C2: for all in-range components — day and month written with one or
two digits and value in range (`1 ≤ d ≤ 31`, `1 ≤ m ≤ 12`), year written
with four digits and value above 1900 — the three textual
representations `D.M.YYYY`, `YYYY-M-D` and `M/D/YYYY` of the same
calendar date all normalize to the same canonical `YYYY-MM-DD` string
(`fmtYMD`), for every generic-parse fallback. -/
theorem date_normalizer_representation_agreement
    (fb : String → Option GenericDate) (dd mm yy : List Char) (d m y : Nat)
    (hd : ∀ c ∈ dd, c.isDigit = true) (hdl : dd.length = 1 ∨ dd.length = 2)
    (hdv : digitsVal dd = d)
    (hm : ∀ c ∈ mm, c.isDigit = true) (hml : mm.length = 1 ∨ mm.length = 2)
    (hmv : digitsVal mm = m)
    (hy : ∀ c ∈ yy, c.isDigit = true) (hyl : yy.length = 4)
    (hyv : digitsVal yy = y)
    (hd1 : 1 ≤ d) (hd31 : d ≤ 31) (hm1 : 1 ≤ m) (hm12 : m ≤ 12)
    (hy19 : 1900 < y) :
    parseAndFormatDate fb ⟨dd ++ '.' :: (mm ++ '.' :: yy)⟩ =
      some (fmtYMD y m d) ∧
    parseAndFormatDate fb ⟨yy ++ '-' :: (mm ++ '-' :: dd)⟩ =
      some (fmtYMD y m d) ∧
    parseAndFormatDate fb ⟨mm ++ '/' :: (dd ++ '/' :: yy)⟩ =
      some (fmtYMD y m d) := by
  subst hdv hmv hyv
  have hrange : rangeOk (digitsVal dd) (digitsVal mm) (digitsVal yy) = true := by
    simp only [rangeOk, Bool.and_eq_true, decide_eq_true_eq]
    omega
  have nd : ∀ c ∈ dd, c.isWhitespace = false := fun c hc => digit_not_ws (hd c hc)
  have nm : ∀ c ∈ mm, c.isWhitespace = false := fun c hc => digit_not_ws (hm c hc)
  have ny : ∀ c ∈ yy, c.isWhitespace = false := fun c hc => digit_not_ws (hy c hc)
  have hddne : dd ≠ [] := by
    rcases hdl with h | h <;> (intro he; rw [he] at h; simp at h)
  have hmmne : mm ≠ [] := by
    rcases hml with h | h <;> (intro he; rw [he] at h; simp at h)
  have hyyne : yy ≠ [] := by
    intro he; rw [he] at hyl; simp at hyl
  refine ⟨?_, ?_, ?_⟩
  · rw [parseAndFormatDate_mk fb _ (by simp [hddne])
      (nws_of_parts nd nm ny (by decide) (by decide)),
      tryDMY_some fb _ (matchDMY_build dd mm yy hd hdl hm hml hy hyl) hrange]
  · rw [parseAndFormatDate_mk fb _ (by simp [hyyne])
      (nws_of_parts ny nm nd (by decide) (by decide)),
      tryDMY_of_fails fb _ (by simp [dmyFails, matchDMY_none_ymd dd mm yy hy hyl]),
      tryYMD_some fb _ (matchYMD_build dd mm yy hd hdl hm hml hy hyl) hrange]
  · rw [parseAndFormatDate_mk fb _ (by simp [hmmne])
      (nws_of_parts nm nd ny (by decide) (by decide)),
      tryDMY_of_fails fb _ (by simp [dmyFails, matchDMY_none_mdy dd mm yy hm hml]),
      tryYMD_of_fails fb _
        (by simp [ymdFails, matchYMD_none_mdy dd mm yy hm hml hd hdl]),
      tryMDY_some fb _ (matchMDY_build dd mm yy hd hdl hm hml hy hyl) hrange]

theorem date_normalizer_representation_agreement_witness :
    parseAndFormatDate (fun _ => none) "25.12.2025" = some "2025-12-25" ∧
    parseAndFormatDate (fun _ => none) "2025-12-25" = some "2025-12-25" ∧
    parseAndFormatDate (fun _ => none) "12/25/2025" = some "2025-12-25" := by
  have h := date_normalizer_representation_agreement (fun _ => none)
    ['2', '5'] ['1', '2'] ['2', '0', '2', '5'] 25 12 2025
    (by decide) (by decide) (by decide) (by decide) (by decide) (by decide)
    (by decide) (by decide) (by decide) (by decide) (by decide) (by decide)
    (by decide) (by decide)
  refine ⟨?_, ?_, ?_⟩
  · rw [show ("25.12.2025" : String) =
      ⟨['2', '5'] ++ '.' :: (['1', '2'] ++ '.' :: ['2', '0', '2', '5'])⟩ from by decide,
      show ("2025-12-25" : String) = fmtYMD 2025 12 25 from by decide]
    exact h.1
  · rw [show ("2025-12-25" : String) = fmtYMD 2025 12 25 from by decide]
    exact h.2.1
  · rw [show ("12/25/2025" : String) =
      ⟨['1', '2'] ++ '/' :: (['2', '5'] ++ '/' :: ['2', '0', '2', '5'])⟩ from by decide,
      show ("2025-12-25" : String) = fmtYMD 2025 12 25 from by decide]
    exact h.2.2

/-! ### C1: the listed events are sorted -/

/-- The specified order: dated records ascending by `sortableDate`, ties
broken by ascending `startTime`, and every record with no parseable
date after all dated records. -/
def specLe (a b : ListedEvent) : Prop :=
  if optFalsy a.sortableDate then optFalsy b.sortableDate = true
  else
    optFalsy b.sortableDate = true ∨
    a.sortableDate.getD "" < b.sortableDate.getD "" ∨
    (a.sortableDate.getD "" = b.sortableDate.getD "" ∧ a.startTime ≤ b.startTime)

theorem eventLe_iff (a b : ListedEvent) : eventLe a b = true ↔ specLe a b := by
  unfold eventLe eventCmp specLe
  by_cases hfa : optFalsy a.sortableDate = true
  · by_cases hfb : optFalsy b.sortableDate = true
    · rw [if_pos (by rw [hfa, hfb]; rfl), if_pos hfa]
      simp [hfb]
    · rw [if_neg (by simp [hfb]), if_pos hfa, if_pos hfa]
      simp [hfb]
  · rw [if_neg (by simp [hfa]), if_neg hfa, if_neg hfa]
    by_cases hfb : optFalsy b.sortableDate = true
    · rw [if_pos hfb]
      simp [hfb]
    · rw [if_neg hfb]
      rcases lt_trichotomy (a.sortableDate.getD "") (b.sortableDate.getD "")
        with h | h | h
      · rw [if_pos h]
        simp [h]
      · rw [if_neg (by rw [h]; exact lt_irrefl _),
          if_neg (by rw [h]; exact lt_irrefl _)]
        rcases lt_trichotomy a.startTime b.startTime with h2 | h2 | h2
        · rw [if_pos h2]
          simp [hfb, h, le_of_lt h2]
        · rw [if_neg (by rw [h2]; exact lt_irrefl _),
            if_neg (by rw [h2]; exact lt_irrefl _)]
          simp [hfb, h, h2, le_refl]
        · rw [if_neg (lt_asymm h2), if_pos h2]
          simp [hfb, h, not_le_of_lt h2]
      · rw [if_neg (lt_asymm h), if_pos h]
        simp [hfb, lt_asymm h, ne_of_gt h]

theorem specLe_trans {a b c : ListedEvent} (h1 : specLe a b) (h2 : specLe b c) :
    specLe a c := by
  unfold specLe at h1 h2 ⊢
  by_cases hfa : optFalsy a.sortableDate = true
  · rw [if_pos hfa] at h1
    rw [if_pos h1] at h2
    rw [if_pos hfa]
    exact h2
  · rw [if_neg hfa] at h1
    rw [if_neg hfa]
    by_cases hfc : optFalsy c.sortableDate = true
    · exact Or.inl hfc
    · by_cases hfb : optFalsy b.sortableDate = true
      · rw [if_pos hfb] at h2
        exact absurd h2 hfc
      · rw [if_neg hfb] at h2
        rcases h1 with h1 | h1 | ⟨e1, s1⟩
        · exact absurd h1 hfb
        · rcases h2 with h2 | h2 | ⟨e2, s2⟩
          · exact absurd h2 hfc
          · exact Or.inr (Or.inl (lt_trans h1 h2))
          · exact Or.inr (Or.inl (by rw [← e2]; exact h1))
        · rcases h2 with h2 | h2 | ⟨e2, s2⟩
          · exact absurd h2 hfc
          · exact Or.inr (Or.inl (by rw [e1]; exact h2))
          · exact Or.inr (Or.inr ⟨e1.trans e2, le_trans s1 s2⟩)

theorem specLe_total (a b : ListedEvent) : specLe a b ∨ specLe b a := by
  unfold specLe
  by_cases hfa : optFalsy a.sortableDate = true
  · by_cases hfb : optFalsy b.sortableDate = true
    · exact Or.inl (by rw [if_pos hfa]; exact hfb)
    · exact Or.inr (by rw [if_neg hfb]; exact Or.inl hfa)
  · by_cases hfb : optFalsy b.sortableDate = true
    · exact Or.inl (by rw [if_neg hfa]; exact Or.inl hfb)
    · rcases lt_trichotomy (a.sortableDate.getD "") (b.sortableDate.getD "")
        with h | h | h
      · exact Or.inl (by rw [if_neg hfa]; exact Or.inr (Or.inl h))
      · rcases le_total a.startTime b.startTime with hst | hst
        · exact Or.inl (by rw [if_neg hfa]; exact Or.inr (Or.inr ⟨h, hst⟩))
        · exact Or.inr (by rw [if_neg hfb]; exact Or.inr (Or.inr ⟨h.symm, hst⟩))
      · exact Or.inr (by rw [if_neg hfb]; exact Or.inr (Or.inl h))

/-- C1: for every row set and fallback, the GET /api/events output is a
permutation of the normalized records (all records are returned),
pairwise ordered by ascending `sortableDate` then ascending `startTime`
with undated records last, and in particular no record without a
parseable date ever precedes a dated one. -/
theorem list_events_sorted_spec (fb : String → Option GenericDate)
    (rows : List SheetRow) :
    (listEvents fb rows).Perm (rows.map (mkListed fb)) ∧
    (listEvents fb rows).Pairwise specLe ∧
    (listEvents fb rows).Pairwise
      (fun a b => optFalsy b.sortableDate = false →
        optFalsy a.sortableDate = false) := by
  have htrans : ∀ x y z : ListedEvent,
      eventLe x y → eventLe y z → eventLe x z := by
    intro x y z h1 h2
    rw [eventLe_iff] at h1 h2 ⊢
    exact specLe_trans h1 h2
  have htotal : ∀ x y : ListedEvent, eventLe x y || eventLe y x := by
    intro x y
    rw [Bool.or_eq_true]
    rcases specLe_total x y with h | h
    · exact Or.inl ((eventLe_iff x y).mpr h)
    · exact Or.inr ((eventLe_iff y x).mpr h)
  have hpair : (listEvents fb rows).Pairwise (fun x y => eventLe x y = true) :=
    List.sorted_mergeSort htrans htotal (rows.map (mkListed fb))
  refine ⟨List.mergeSort_perm _ _, hpair.imp (fun h => (eventLe_iff _ _).mp h), ?_⟩
  refine hpair.imp ?_
  intro x y h hby
  have hs := (eventLe_iff x y).mp h
  unfold specLe at hs
  by_cases hfx : optFalsy x.sortableDate = true
  · rw [if_pos hfx] at hs
    rw [hs] at hby
    exact absurd hby (by simp)
  · simpa using hfx

end EbaPlanner
